import Mathlib

/-!
Verification of the macos-ai-screenshot-renamer pipeline.

Strings are modelled as lists of character code points (`List Nat`), matching
Python `str` semantics for the ASCII operations the program performs
(`lower`, `strip`, `replace`, `split`, slicing, `isalnum` on ASCII input).
External collaborators (OCR engine, caption model, LLM generator) are
modelled as oracle functions; the filesystem is a list of filenames plus a
list of metadata records.
-/

/-- Character-code constants used throughout: newline, space, dash, dot, underscore. -/
def nlCode : Nat := 10

def spaceCode : Nat := 32

def dashCode : Nat := 45

def dotCode : Nat := 46

def underscoreCode : Nat := 95

/-- Python `str.lower` on one ASCII character code: uppercase letters shift by 32. -/
def pyLowerChar (c : Nat) : Nat :=
  if 65 ≤ c ∧ c ≤ 90 then c + 32 else c

/-- Python `str.lower` on a whole string. -/
def pyLower (s : List Nat) : List Nat :=
  s.map pyLowerChar

/-- Python whitespace characters stripped by `str.strip`. -/
def isWSCode (c : Nat) : Bool :=
  c = 9 ∨ c = 10 ∨ c = 11 ∨ c = 12 ∨ c = 13 ∨ c = 32

/-- Python `str.strip`: drop leading and trailing whitespace. -/
def pyStrip (s : List Nat) : List Nat :=
  (((s.dropWhile isWSCode).reverse.dropWhile isWSCode).reverse)

/-- The first line of a string, as produced by `response.split("\n")[0]`. -/
def firstLine (s : List Nat) : List Nat :=
  s.takeWhile (fun c => c ≠ nlCode)

/-- The `.replace(" ", "_")` step of the sanitizer. -/
def spaceToUnderscore (s : List Nat) : List Nat :=
  s.map (fun c => if c = spaceCode then underscoreCode else c)

/-- Python `.replace("__", "_")`: one left-to-right pass replacing each
non-overlapping occurrence of two underscores by one. -/
def collapseDU : List Nat → List Nat
  | [] => []
  | [c] => [c]
  | a :: b :: rest =>
    if a = underscoreCode ∧ b = underscoreCode then underscoreCode :: collapseDU rest
    else a :: collapseDU (b :: rest)

/-- Whether the string contains two consecutive underscores. -/
def hasDoubleUnderscore : List Nat → Bool
  | [] => false
  | [_] => false
  | a :: b :: rest =>
    (a = underscoreCode ∧ b = underscoreCode : Bool) || hasDoubleUnderscore (b :: rest)

/-- ASCII decimal digit test. -/
def isDigitCode (c : Nat) : Bool :=
  48 ≤ c ∧ c ≤ 57

/-- Python `c.isalnum()` restricted to ASCII: digit or letter of either case. -/
def isAlnumCode (c : Nat) : Bool :=
  (48 ≤ c ∧ c ≤ 57) ∨ (65 ≤ c ∧ c ≤ 90) ∨ (97 ≤ c ∧ c ≤ 122)

/-- The sanitizer's charset test: `c.isalnum() or c in "._-"`. -/
def isAllowedCode (c : Nat) : Bool :=
  isAlnumCode c || c = dotCode || c = underscoreCode || c = dashCode

/-- The intermediate string after strip, first-line extraction, lowercasing and
space replacement, i.e. the input to the double-underscore collapse. -/
def sanitizePre (r : List Nat) : List Nat :=
  spaceToUnderscore (pyLower (firstLine (pyStrip r)))

/-- The sanitized stem of `generate_intelligent_filename`: collapse doubled
underscores (single pass), keep only allowed characters, truncate to 64. -/
def sanitizeStem (r : List Nat) : List Nat :=
  ((collapseDU (sanitizePre r)).filter isAllowedCode).take 64

/-- Code points of ".png". -/
def pngExt : List Nat := [46, 112, 110, 103]

/-- The full return value of `generate_intelligent_filename` as a function of
the raw generator response: sanitized stem plus the fixed extension. -/
def sanitizeResponse (r : List Nat) : List Nat :=
  sanitizeStem r ++ pngExt

-- quick sanity checks (concrete evaluation)
example : sanitizeStem ([109, 121, 32, 102, 105, 108, 101]) = [109, 121, 95, 102, 105, 108, 101] := by decide

/-- Decide whether the regex `\d{4}-\d{2}-\d{2}` matches at the head of the string. -/
def matchAtDate (l : List Nat) : Bool :=
  match l with
  | a :: b :: c :: d :: e :: f :: g :: h :: i :: j :: _ =>
    isDigitCode a && isDigitCode b && isDigitCode c && isDigitCode d &&
    (e = dashCode : Bool) && isDigitCode f && isDigitCode g &&
    (h = dashCode : Bool) && isDigitCode i && isDigitCode j
  | _ => false

/-- `re.search(r"(\d{4}-\d{2}-\d{2})", filename)`: the leftmost ten-character
substring matching the date pattern, if any. -/
def findDate : List Nat → Option (List Nat)
  | [] => none
  | c :: rest =>
    if matchAtDate (c :: rest) then some ((c :: rest).take 10)
    else findDate rest

/-- Code points of "unknown-date". -/
def unknownDate : List Nat := [117, 110, 107, 110, 111, 119, 110, 45, 100, 97, 116, 101]

/-- Code points of "screenshot_". -/
def screenshotTag : List Nat := [115, 99, 114, 101, 101, 110, 115, 104, 111, 116, 95]

/-- `date_part = match.group(1) if match else "unknown-date"`. -/
def dateToken (filename : List Nat) : List Nat :=
  (findDate filename).getD unknownDate

/-- The final filename built by `process_image`:
`f"screenshot_{date_part}-{new_filename}"` where `new_filename` is the
synthesizer output for the raw generator response `resp`. -/
def builtName (filename resp : List Nat) : List Nat :=
  screenshotTag ++ dateToken filename ++ [dashCode] ++ sanitizeResponse resp

/-- The per-item error taxonomy reachable in the embedded pipeline:
`generate_caption` raises `ValueError` ("EmptyDescription") on an empty
caption. -/
inductive PipelineError where
  | emptyDescription
  deriving DecidableEq, Repr

/-- External collaborators: OCR engine, caption engine (raw result, possibly
empty), and the free-text generator as a function of the OCR text and caption
fed into its prompt. -/
structure Oracles where
  ocr : List Nat → List Nat
  caption : List Nat → List Nat
  gen : List Nat → List Nat → List Nat

/-- One metadata record written by `write_exif_metadata`:
(path, ImageDescription, UserComment). -/
structure MetaRecord where
  path : List Nat
  description : List Nat
  comment : List Nat
  deriving DecidableEq, Repr

/-- Filesystem and metadata state touched by the pipeline. -/
structure FSState where
  files : List (List Nat)
  meta : List MetaRecord
  deriving DecidableEq, Repr

/-- `generate_caption`: returns the engine's caption, or raises when it is empty. -/
def generate_caption (o : Oracles) (path : List Nat) : Except PipelineError (List Nat) :=
  let caption := o.caption path
  if caption = [] then Except.error PipelineError.emptyDescription
  else Except.ok caption

/-- `os.rename(old, new)` restricted to the directory model. -/
def renameFile (files : List (List Nat)) (old new : List Nat) : List (List Nat) :=
  files.map (fun f => if f = old then new else f)

/-- The state produced by a successful real-run `process_image` on one item:
rename to the built name, then write the metadata record at the new path. -/
def applyItem (o : Oracles) (path : List Nat) (fs : FSState) : FSState :=
  let ocr_text := o.ocr path
  let ai_caption := o.caption path
  let new_filename := builtName path (o.gen ocr_text ai_caption)
  { files := renameFile fs.files path new_filename,
    meta := { path := new_filename, description := ai_caption, comment := ocr_text } :: fs.meta }

/-- `process_image`: OCR, caption (may raise), synthesize name with date token,
then either report only (dry run) or rename and write metadata. -/
def process_image (o : Oracles) (dry_run : Bool) (path : List Nat) (fs : FSState) :
    Except PipelineError FSState :=
  match generate_caption o path with
  | Except.error e => Except.error e
  | Except.ok _ =>
    if dry_run then Except.ok fs else Except.ok (applyItem o path fs)

/-- The batch loop of `main`: processes items in order; an uncaught per-item
exception aborts the loop, leaving the state reached so far and surfacing the
error to the caller (there is no try/except around `process_image`). -/
def mainLoop (o : Oracles) (dry_run : Bool) :
    List (List Nat) → FSState → FSState × Option PipelineError
  | [], fs => (fs, none)
  | p :: rest, fs =>
    match process_image o dry_run p fs with
    | Except.error e => (fs, some e)
    | Except.ok fs' => mainLoop o dry_run rest fs'

/-- The state after successfully processing every item of a real-run batch. -/
def runAll (o : Oracles) : List (List Nat) → FSState → FSState
  | [], fs => fs
  | p :: rest, fs => runAll o rest (applyItem o p fs)

/-- Helper for `os.path.splitext` on a plain basename: scan for the last dot,
tracking whether a non-dot character occurred before it (CPython skips a
leading run of dots when deciding whether an extension exists). -/
def splitextAux : List Nat → Bool → List Nat
  | [], _ => []
  | c :: rest, seen =>
    if c = dotCode ∧ dotCode ∉ rest ∧ seen = true then c :: rest
    else splitextAux rest (seen || !(c = dotCode : Bool))

/-- `os.path.splitext(p)[-1]` for a basename with no path separator: the suffix
from the last dot, empty when there is no dot or only leading dots precede it. -/
def splitextExt (p : List Nat) : List Nat :=
  splitextAux p false

/-- Code points of "screen". -/
def screenLit : List Nat := [115, 99, 114, 101, 101, 110]

/-- The filter loop of `process_directory`: keep the lowercased name when it
starts with "screen" and its extension is ".png"; otherwise continue. -/
def selectLoop : List (List Nat) → List (List Nat)
  | [] => []
  | f :: rest =>
    let lower_filename := pyLower f
    if ¬ screenLit.isPrefixOf lower_filename then selectLoop rest
    else if splitextExt lower_filename ≠ pngExt then selectLoop rest
    else lower_filename :: selectLoop rest

/-- `process_directory`: raises `FileNotFoundError` when no candidate matched,
otherwise returns the selected (lowercased) names. -/
def process_directory (entries : List (List Nat)) : Except Unit (List (List Nat)) :=
  let image_files := selectLoop entries
  if image_files = [] then Except.error () else Except.ok image_files

/-- Lexicographic comparison on code-point lists, Python `list.sort` order on
strings. -/
def lexLe : List Nat → List Nat → Bool
  | [], _ => true
  | _ :: _, [] => false
  | a :: as, b :: bs => if a < b then true else if b < a then false else lexLe as bs

/-- Comparison by length, the key of `image_files.sort(key=len)`. -/
def lenLe (a b : List Nat) : Prop := a.length ≤ b.length

instance : DecidableRel lenLe := fun a b => inferInstanceAs (Decidable (a.length ≤ b.length))

instance : IsTotal (List Nat) lenLe := ⟨fun a b => Nat.le_total a.length b.length⟩

instance : IsTrans (List Nat) lenLe := ⟨fun _ _ _ h h' => Nat.le_trans h h'⟩

/-- The ordering policy of `main`: sort lexicographically, then shuffle when
dry-running, else stably sort ascending by length. The shuffle is modelled as
an arbitrary reordering function supplied by the environment. -/
def orderFiles (dry_run : Bool) (shuffle : List (List Nat) → List (List Nat))
    (files : List (List Nat)) : List (List Nat) :=
  let sorted := files.insertionSort (fun a b => lexLe a b = true)
  if dry_run then shuffle sorted else sorted.insertionSort lenLe

/-- The batch the orchestrator actually iterates over for a directory listing. -/
def orderedBatch (dry_run : Bool) (shuffle : List (List Nat) → List (List Nat))
    (entries : List (List Nat)) : List (List Nat) :=
  orderFiles dry_run shuffle (selectLoop entries)

/-- The selection predicate of `process_directory`, phrased on the original
directory entry: its lowercased form starts with "screen" and has extension
".png". -/
def isCandidate (f : List Nat) : Prop :=
  screenLit.isPrefixOf (pyLower f) = true ∧ splitextExt (pyLower f) = pngExt

instance (f : List Nat) : Decidable (isCandidate f) := by
  unfold isCandidate
  infer_instance

/-- The whole of `main` after argument parsing: select candidates (fatal error
when none), order them by mode, then run the batch loop. -/
def mainRun (o : Oracles) (dry_run : Bool) (shuffle : List (List Nat) → List (List Nat))
    (entries : List (List Nat)) (fs : FSState) :
    Except Unit (FSState × Option PipelineError) :=
  match process_directory entries with
  | Except.error e => Except.error e
  | Except.ok image_files => Except.ok (mainLoop o dry_run (orderFiles dry_run shuffle image_files) fs)

/-- Concrete collaborators for the partial-failure scenario: the caption engine
returns an empty string exactly on file [50], a one-character caption
otherwise; OCR always returns the empty string; the generator always returns
"a". -/
def cexOracles : Oracles :=
  { ocr := fun _ => [],
    caption := fun p => if p = [50] then [] else [99],
    gen := fun _ _ => [97] }

/-- Concrete collaborators that always succeed, for witnesses. -/
def okOracles : Oracles :=
  { ocr := fun _ => [],
    caption := fun _ => [99],
    gen := fun _ _ => [97] }

/-- The spec's selector example directory listing:
"screen_a.png", "notes.txt", "SCREEN_B.PNG". -/
def demoEntries : List (List Nat) :=
  [[115, 99, 114, 101, 101, 110, 95, 97, 46, 112, 110, 103],
   [110, 111, 116, 101, 115, 46, 116, 120, 116],
   [83, 67, 82, 69, 69, 78, 95, 66, 46, 80, 78, 71]]

/-! ## Helper lemmas -/

/-- A successful caption call makes real-run `process_image` succeed with the
rename-plus-metadata state. -/
theorem process_image_real_ok (o : Oracles) (p : List Nat) (fs : FSState)
    (h : o.caption p ≠ []) :
    process_image o false p fs = Except.ok (applyItem o p fs) := by
  simp [process_image, generate_caption, h]

/-- An empty caption makes `process_image` fail with `emptyDescription`. -/
theorem process_image_empty (o : Oracles) (dry_run : Bool) (p : List Nat) (fs : FSState)
    (h : o.caption p = []) :
    process_image o dry_run p fs = Except.error PipelineError.emptyDescription := by
  simp [process_image, generate_caption, h]

/-- Lowercasing a single code point is idempotent. -/
theorem pyLowerChar_idem (c : Nat) : pyLowerChar (pyLowerChar c) = pyLowerChar c := by
  unfold pyLowerChar
  split
  · next h => simp only [if_neg (by omega : ¬(65 ≤ c + 32 ∧ c + 32 ≤ 90))]
  · rfl

/-- Lowercasing a string is idempotent. -/
theorem pyLower_idem (s : List Nat) : pyLower (pyLower s) = pyLower s := by
  unfold pyLower
  rw [List.map_map]
  exact List.map_congr_left (fun c _ => pyLowerChar_idem c)

/-- A one-pass double-underscore replacement is the identity on strings that
contain no doubled underscore. -/
theorem collapseDU_of_no_dd (l : List Nat) (h : hasDoubleUnderscore l = false) :
    collapseDU l = l := by
  induction l with
  | nil => rfl
  | cons a tail ih =>
    cases tail with
    | nil => rfl
    | cons b rest =>
      have h' : (a = underscoreCode ∧ b = underscoreCode : Bool) = false ∧
          hasDoubleUnderscore (b :: rest) = false := by
        simpa [hasDoubleUnderscore] using h
      have hcond : ¬(a = underscoreCode ∧ b = underscoreCode) := by
        simpa using h'.1
      simp only [collapseDU, if_neg hcond]
      rw [ih h'.2]

/-- Truncation cannot introduce a doubled underscore. -/
theorem hasDD_take (l : List Nat) : ∀ (n : Nat), hasDoubleUnderscore l = false →
    hasDoubleUnderscore (l.take n) = false := by
  induction l with
  | nil => intro n _; simp [hasDoubleUnderscore]
  | cons a tail ih =>
    intro n h
    cases n with
    | zero => simp [hasDoubleUnderscore]
    | succ m =>
      rw [List.take_succ_cons]
      cases tail with
      | nil => simp [hasDoubleUnderscore]
      | cons b rest =>
        have h' : (a = underscoreCode ∧ b = underscoreCode : Bool) = false ∧
            hasDoubleUnderscore (b :: rest) = false := by
          simpa [hasDoubleUnderscore] using h
        cases m with
        | zero => simp [hasDoubleUnderscore]
        | succ k =>
          have h2 := ih (k + 1) h'.2
          rw [List.take_succ_cons] at h2
          rw [List.take_succ_cons]
          simp [hasDoubleUnderscore, h'.1, h2]

/-- The extension returned by `splitext` is a suffix of its input. -/
theorem splitextAux_suffix (p : List Nat) : ∀ (seen : Bool), (splitextAux p seen).IsSuffix p := by
  induction p with
  | nil => intro seen; exact List.nil_suffix
  | cons c rest ih =>
    intro seen
    unfold splitextAux
    split
    · exact List.suffix_refl _
    · exact (ih _).trans (List.suffix_cons c rest)

/-! ## Claim theorems -/

/-- C2 (confirmed). In dry-run mode the batch loop performs no rename and no
metadata write: for every batch and every starting state, the filesystem and
metadata state after the loop equals the state before it, whether or not any
per-item error occurred along the way. -/
theorem dry_run_preserves_state (o : Oracles) (files : List (List Nat)) (fs : FSState) :
    (mainLoop o true files fs).1 = fs := by
  induction files generalizing fs with
  | nil => rfl
  | cons p rest ih =>
    simp only [mainLoop, process_image, generate_caption]
    by_cases h : o.caption p = []
    · simp [h]
    · simp [h, ih]

/-- C9 (confirmed). The sanitization stage is a pure function of the raw
generator response — two runs on the same response yield the same stem — and
on the response "My Login Screen!!" the stem is exactly "my_login_screen". -/
theorem sanitize_deterministic :
    (∀ r : List Nat, sanitizeStem r = sanitizeStem r) ∧
    sanitizeStem [77, 121, 32, 76, 111, 103, 105, 110, 32, 83, 99, 114, 101, 101, 110, 33, 33] =
      [109, 121, 95, 108, 111, 103, 105, 110, 95, 115, 99, 114, 101, 101, 110] :=
  ⟨fun _ => rfl, by decide⟩

/-- C8 (confirmed). Every character of the sanitized stem is alphanumeric,
an underscore, a dash, or a dot. -/
theorem stem_charset (r : List Nat) (c : Nat) (h : c ∈ sanitizeStem r) :
    isAllowedCode c = true := by
  have h' : c ∈ (collapseDU (sanitizePre r)).filter isAllowedCode :=
    List.mem_of_mem_take h
  exact (List.mem_filter.mp h').2

/-- Witness for C8 at the response "My": the character 'm' is in the stem and
is allowed. -/
theorem stem_charset_witness :
    (109 ∈ sanitizeStem [77, 121]) ∧ isAllowedCode 109 = true :=
  ⟨by decide, stem_charset [77, 121] 109 (by decide)⟩

/-- Counterexample for C4 as stated. With original filename
"screenshot_2024-03-01.png" and a 65-character generator response, the final
name has length 90, exceeding 64 + |"screenshot_"| + |"2024-03-01"| +
|".png"| = 89: the claim's decomposition omits the dash the code inserts
between the date token and the stem. -/
theorem length_bound_cex :
    ¬((builtName
        [115, 99, 114, 101, 101, 110, 115, 104, 111, 116, 95,
         50, 48, 50, 52, 45, 48, 51, 45, 48, 49, 46, 112, 110, 103]
        (List.replicate 65 97)).length ≤
      64 + screenshotTag.length +
        (dateToken
          [115, 99, 114, 101, 101, 110, 115, 104, 111, 116, 95,
           50, 48, 50, 52, 45, 48, 51, 45, 48, 49, 46, 112, 110, 103]).length +
        pngExt.length) := by
  decide

/-- C4 (corrected). The stem is at most 64 characters before the extension is
appended; the synthesizer output is the stem followed by the fixed ".png"
extension; and the final name is the fixed tag, the date token, a dash
separator, the stem, and the extension, so its length is at most
64 + |tag| + |date token| + 1 + |extension| (the claim as stated omitted the
one-character dash separator). -/
theorem length_bound (filename r : List Nat) :
    (sanitizeStem r).length ≤ 64 ∧
    sanitizeResponse r = sanitizeStem r ++ pngExt ∧
    builtName filename r =
      screenshotTag ++ dateToken filename ++ [dashCode] ++ sanitizeStem r ++ pngExt ∧
    (builtName filename r).length ≤
      64 + screenshotTag.length + (dateToken filename).length + 1 + pngExt.length := by
  refine ⟨?_, rfl, ?_, ?_⟩
  · exact le_trans (List.length_take_le 64 _) (le_refl 64)
  · simp [builtName, sanitizeResponse, List.append_assoc]
  · have hstem : (sanitizeStem r).length ≤ 64 := List.length_take_le 64 _
    simp only [builtName, sanitizeResponse, List.length_append, List.length_cons,
      List.length_nil]
    omega

/-- Counterexample for C3 as stated. On the raw response "a_?_b" the stem is
"a__b": the '?' is stripped only after the single doubled-underscore
replacement pass, leaving two consecutive underscores. -/
theorem no_double_underscore_cex :
    hasDoubleUnderscore (sanitizeStem [97, 95, 63, 95, 98]) = true := by
  decide

/-- C3 (corrected). The doubled-underscore replacement is a single
left-to-right pass performed before the charset strip, so the stem can retain
consecutive underscores. Whenever the first line of the stripped response,
after lowercasing and space replacement, already contains no doubled
underscore and no character outside the allowed set, the stem contains no
doubled underscore. -/
theorem no_double_underscore (r : List Nat)
    (h1 : hasDoubleUnderscore (sanitizePre r) = false)
    (h2 : ∀ c ∈ sanitizePre r, isAllowedCode c = true) :
    hasDoubleUnderscore (sanitizeStem r) = false := by
  unfold sanitizeStem
  rw [collapseDU_of_no_dd _ h1, List.filter_eq_self.mpr h2]
  exact hasDD_take _ 64 h1

/-- Witness for C3's amended statement at the response "my_file". -/
theorem no_double_underscore_witness :
    hasDoubleUnderscore (sanitizePre [109, 121, 95, 102, 105, 108, 101]) = false ∧
    (∀ c ∈ sanitizePre [109, 121, 95, 102, 105, 108, 101], isAllowedCode c = true) ∧
    hasDoubleUnderscore (sanitizeStem [109, 121, 95, 102, 105, 108, 101]) = false :=
  ⟨by decide, by decide,
    no_double_underscore [109, 121, 95, 102, 105, 108, 101] (by decide) (by decide)⟩

/-- C7 (confirmed). The date token is the leftmost substring of the original
filename matching the YYYY-MM-DD pattern: "screenshot_2024-03-01_142233.png"
yields "2024-03-01"; when no such substring exists the placeholder
"unknown-date" is substituted, and the item is still fully processed
(real-run `process_image` succeeds whenever the caption is non-empty,
regardless of the date). -/
theorem date_token_extraction :
    dateToken [115, 99, 114, 101, 101, 110, 115, 104, 111, 116, 95,
      50, 48, 50, 52, 45, 48, 51, 45, 48, 49, 95, 49, 52, 50, 50, 51, 51,
      46, 112, 110, 103] = [50, 48, 50, 52, 45, 48, 51, 45, 48, 49] ∧
    (∀ name : List Nat, findDate name = none → dateToken name = unknownDate) ∧
    (∀ (o : Oracles) (name : List Nat) (fs : FSState), o.caption name ≠ [] →
      process_image o false name fs = Except.ok (applyItem o name fs)) := by
  refine ⟨by decide, ?_, ?_⟩
  · intro name h
    simp [dateToken, h]
  · intro o name fs h
    exact process_image_real_ok o name fs h

/-- Witness for C7 at the dateless filename "n": the placeholder is used and
the item is still processed. -/
theorem date_token_witness :
    dateToken [110] = unknownDate ∧
    process_image okOracles false [110] { files := [[110]], meta := [] } =
      Except.ok (applyItem okOracles [110] { files := [[110]], meta := [] }) :=
  ⟨date_token_extraction.2.1 [110] (by decide),
    date_token_extraction.2.2 okOracles [110] { files := [[110]], meta := [] } (by decide)⟩

/-- Counterexample for C1 as stated. In the real-run batch [1], [2], [3] where
the caption engine returns an empty string exactly on item [2], the loop
aborts: the `EmptyDescription` error IS propagated to the caller of the batch
loop, and item [3] is left untouched (only item [1] was renamed). There is no
try/except around `process_image` in `main`. -/
theorem empty_description_propagates_cex :
    (mainLoop cexOracles false [[49], [50], [51]]
        { files := [[49], [50], [51]], meta := [] }).2 =
      some PipelineError.emptyDescription ∧
    (mainLoop cexOracles false [[49], [50], [51]]
        { files := [[49], [50], [51]], meta := [] }).1.files =
      [builtName [49] [97], [50], [51]] := by
  decide

/-- C1 (corrected). When the caption engine returns an empty string for one
item of a real-run batch, the loop stops there: items before the failing one
are fully processed (renamed and annotated), the failing item and every later
item are not processed, and the error propagates to the caller of the batch
loop. -/
theorem batch_stops_at_first_empty_caption (o : Oracles) (pre : List (List Nat))
    (x : List Nat) (post : List (List Nat)) (fs : FSState)
    (hx : o.caption x = []) (hpre : ∀ y ∈ pre, o.caption y ≠ []) :
    mainLoop o false (pre ++ x :: post) fs =
      (runAll o pre fs, some PipelineError.emptyDescription) := by
  induction pre generalizing fs with
  | nil =>
    simp only [List.nil_append, mainLoop, process_image_empty o false x fs hx, runAll]
  | cons p rest ih =>
    have hp : o.caption p ≠ [] := hpre p (by simp)
    simp only [List.cons_append, mainLoop, process_image_real_ok o p fs hp, runAll]
    exact ih (applyItem o p fs) (fun y hy => hpre y (List.mem_cons_of_mem p hy))

/-- Witness for C1's amended statement on the concrete three-item batch. -/
theorem batch_stops_witness :
    cexOracles.caption [50] = [] ∧
    (∀ y ∈ [[49]], cexOracles.caption y ≠ ([] : List Nat)) ∧
    mainLoop cexOracles false ([[49]] ++ [50] :: [[51]])
        { files := [[49], [50], [51]], meta := [] } =
      (runAll cexOracles [[49]] { files := [[49], [50], [51]], meta := [] },
        some PipelineError.emptyDescription) :=
  ⟨by decide, by decide,
    batch_stops_at_first_empty_caption cexOracles [[49]] [50] [[51]]
      { files := [[49], [50], [51]], meta := [] } (by decide) (by decide)⟩


/-- Membership in the selector's result: exactly the lowercased forms of the
directory entries whose lowercased name starts with "screen" and has
extension ".png". -/
theorem mem_selectLoop (entries : List (List Nat)) (x : List Nat) :
    x ∈ selectLoop entries ↔ ∃ f ∈ entries, isCandidate f ∧ x = pyLower f := by
  induction entries with
  | nil => simp [selectLoop]
  | cons f rest ih =>
    simp only [selectLoop]
    split
    · next h1 =>
      rw [ih]
      constructor
      · rintro ⟨g, hg, hc, hx⟩
        exact ⟨g, List.mem_cons_of_mem f hg, hc, hx⟩
      · rintro ⟨g, hg, hc, hx⟩
        rcases List.mem_cons.mp hg with rfl | hg'
        · exact absurd hc.1 (by simpa using h1)
        · exact ⟨g, hg', hc, hx⟩
    · next h1 =>
      split
      · next h2 =>
        rw [ih]
        constructor
        · rintro ⟨g, hg, hc, hx⟩
          exact ⟨g, List.mem_cons_of_mem f hg, hc, hx⟩
        · rintro ⟨g, hg, hc, hx⟩
          rcases List.mem_cons.mp hg with rfl | hg'
          · exact absurd hc.2 h2
          · exact ⟨g, hg', hc, hx⟩
      · next h2 =>
        rw [List.mem_cons, ih]
        constructor
        · rintro (rfl | ⟨g, hg, hc, hx⟩)
          · exact ⟨f, List.mem_cons_self f rest, ⟨by simpa using h1, by simpa using h2⟩, rfl⟩
          · exact ⟨g, List.mem_cons_of_mem f hg, hc, hx⟩
        · rintro ⟨g, hg, hc, hx⟩
          rcases List.mem_cons.mp hg with rfl | hg'
          · exact Or.inl hx
          · exact Or.inr ⟨g, hg', hc, hx⟩

/-- The selector's result is empty exactly when no entry satisfies the filter. -/
theorem selectLoop_eq_nil (entries : List (List Nat)) :
    selectLoop entries = [] ↔ ∀ f ∈ entries, ¬ isCandidate f := by
  rw [List.eq_nil_iff_forall_not_mem]
  constructor
  · intro h f hf hc
    exact h (pyLower f) ((mem_selectLoop entries (pyLower f)).mpr ⟨f, hf, hc, rfl⟩)
  · intro h x hx
    obtain ⟨f, hf, hc, _⟩ := (mem_selectLoop entries x).mp hx
    exact h f hf hc

/-- The ordering policy returns a permutation of the selected batch in both
modes, as long as the shuffle itself permutes its input. -/
theorem orderFiles_perm (dry_run : Bool) (shuffle : List (List Nat) → List (List Nat))
    (files : List (List Nat)) (hs : ∀ l, (shuffle l).Perm l) :
    (orderFiles dry_run shuffle files).Perm files := by
  cases dry_run with
  | false =>
    simp only [orderFiles, if_neg, Bool.false_eq_true, if_false]
    exact (List.perm_insertionSort lenLe _).trans (List.perm_insertionSort _ files)
  | true =>
    simp only [orderFiles, if_true]
    exact (hs _).trans (List.perm_insertionSort _ files)

/-- C5 (confirmed). For a fixed batch, real-run processing order is
non-decreasing by filename length and is a permutation of the batch; dry-run
order is a permutation of the batch produced by the supplied shuffle, and two
different shuffles can produce different orders on the same batch, so
repeated dry runs may process items in different orders. -/
theorem ordering_policy (files : List (List Nat))
    (shuffle : List (List Nat) → List (List Nat)) (hs : ∀ l, (shuffle l).Perm l) :
    (List.Sorted lenLe (orderFiles false shuffle files) ∧
      (orderFiles false shuffle files).Perm files) ∧
    ((orderFiles true shuffle files).Perm files ∧
      orderFiles true id [[97], [98, 98]] ≠ orderFiles true List.reverse [[97], [98, 98]]) := by
  refine ⟨⟨?_, orderFiles_perm false shuffle files hs⟩,
    orderFiles_perm true shuffle files hs, by decide⟩
  simp only [orderFiles, Bool.false_eq_true, if_false]
  exact List.sorted_insertionSort lenLe _

/-- Witness for C5 on the two-item batch ["a", "bb"] with the identity shuffle. -/
theorem ordering_policy_witness :
    (List.Sorted lenLe (orderFiles false id [[98, 98], [97]]) ∧
      (orderFiles false id [[98, 98], [97]]).Perm [[98, 98], [97]]) ∧
    ((orderFiles true id [[98, 98], [97]]).Perm [[98, 98], [97]] ∧
      orderFiles true id [[97], [98, 98]] ≠ orderFiles true List.reverse [[97], [98, 98]]) :=
  ordering_policy [[98, 98], [97]] id (fun l => List.Perm.refl l)

/-- C6 (confirmed). The candidate selector keeps exactly the directory entries
whose case-folded name starts with "screen" and whose case-folded extension
is ".png" (on the example listing it selects precisely the two
screenshot-prefixed .png files), and `process_directory` raises its fatal
no-candidates error if and only if no entry matches. -/
theorem selector_filter (entries : List (List Nat)) (x : List Nat) :
    (x ∈ selectLoop entries ↔ ∃ f ∈ entries, isCandidate f ∧ x = pyLower f) ∧
    (process_directory entries = Except.error () ↔ ∀ f ∈ entries, ¬ isCandidate f) ∧
    selectLoop demoEntries =
      [[115, 99, 114, 101, 101, 110, 95, 97, 46, 112, 110, 103],
       [115, 99, 114, 101, 101, 110, 95, 98, 46, 112, 110, 103]] := by
  refine ⟨mem_selectLoop entries x, ?_, by decide⟩
  rw [← selectLoop_eq_nil]
  unfold process_directory
  by_cases h : selectLoop entries = []
  · simp [h]
  · simp [h]

/-- Witness for C6 on the example listing and the entry "screen_a.png". -/
theorem selector_filter_witness :
    (([115, 99, 114, 101, 101, 110, 95, 97, 46, 112, 110, 103] ∈ selectLoop demoEntries ↔
      ∃ f ∈ demoEntries, isCandidate f ∧
        [115, 99, 114, 101, 101, 110, 95, 97, 46, 112, 110, 103] = pyLower f) ∧
    (process_directory demoEntries = Except.error () ↔ ∀ f ∈ demoEntries, ¬ isCandidate f) ∧
    selectLoop demoEntries =
      [[115, 99, 114, 101, 101, 110, 95, 97, 46, 112, 110, 103],
       [115, 99, 114, 101, 101, 110, 95, 98, 46, 112, 110, 103]]) :=
  selector_filter demoEntries [115, 99, 114, 101, 101, 110, 95, 97, 46, 112, 110, 103]

/-- C10 (confirmed). Every name in the batch the orchestrator iterates over is
the lowercase folding of a directory entry: it equals its own lowercase
folding, starts with "screen", and ends with ".png"; the paths later renamed
and annotated are built from these lowercased names. -/
theorem candidates_lowercased (entries : List (List Nat)) (dry_run : Bool)
    (shuffle : List (List Nat) → List (List Nat)) (hs : ∀ l, (shuffle l).Perm l)
    (x : List Nat) (hx : x ∈ orderedBatch dry_run shuffle entries) :
    x = pyLower x ∧ screenLit.isPrefixOf x = true ∧ pngExt.IsSuffix x := by
  have hx' : x ∈ selectLoop entries :=
    (orderFiles_perm dry_run shuffle (selectLoop entries) hs).mem_iff.mp hx
  obtain ⟨f, hf, hc, rfl⟩ := (mem_selectLoop entries x).mp hx'
  refine ⟨(pyLower_idem f).symm, hc.1, ?_⟩
  have hsuf := splitextAux_suffix (pyLower f) false
  rw [show splitextAux (pyLower f) false = splitextExt (pyLower f) from rfl, hc.2] at hsuf
  exact hsuf

/-- Witness for C10: the processed batch for the example listing contains
"screen_a.png", which is its own lowercase folding with the right affixes. -/
theorem candidates_lowercased_witness :
    [115, 99, 114, 101, 101, 110, 95, 97, 46, 112, 110, 103] =
      pyLower [115, 99, 114, 101, 101, 110, 95, 97, 46, 112, 110, 103] ∧
    screenLit.isPrefixOf [115, 99, 114, 101, 101, 110, 95, 97, 46, 112, 110, 103] = true ∧
    pngExt.IsSuffix [115, 99, 114, 101, 101, 110, 95, 97, 46, 112, 110, 103] :=
  candidates_lowercased demoEntries false id (fun l => List.Perm.refl l)
    [115, 99, 114, 101, 101, 110, 95, 97, 46, 112, 110, 103] (by decide)
